import Mathlib

/-!
Shallow embedding of the live segmentation/transcription pipeline of
`src/sys2txt/__main__.py` (function `segment_and_transcribe_live`, lines
101-189, together with `transcribe_file`, lines 191-205, and the engine
choices offered by `main`, lines 265-266).

Modelling conventions:
* Python strings are Lean `String`s; Python's string comparison
  (code-point lexicographic, used by `sorted`) is modelled by `lexLt` /
  `strLt` / `strLe` below, operating on `String.data`.
* The scratch directory is a snapshot `List (String × Nat)` pairing each
  file name with its byte size at observation time (`os.listdir` +
  `os.path.getsize`).  One snapshot is taken per poll iteration and one
  per drain scan, matching the two `os.listdir` calls in the source.
* The transcription engine is an oracle `trans : String → Except String
  String`: `Except.ok text` models a successful `transcribe_file` call,
  `Except.error e` models the call raising an exception.
* An operator interrupt (`KeyboardInterrupt`) is modelled as arriving
  during the `time.sleep(0.3)` between poll iterations: the round list of
  a script is the sequence of completed poll iterations, and exhausting
  it means the operator pressed Ctrl-C during the following sleep.
-/

namespace Sys2txt

/-! ## Python string comparison (code-point lexicographic) -/

/-- Lexicographic strict comparison of character lists by code point;
this is exactly the order Python's `sorted` uses on `str`. -/
def lexLt : List Char → List Char → Bool
  | [], [] => false
  | [], _ :: _ => true
  | _ :: _, [] => false
  | a :: as, b :: bs =>
    if a.toNat < b.toNat then true
    else if b.toNat < a.toNat then false
    else lexLt as bs

/-- Python `s < t` on strings. -/
def strLt (s t : String) : Bool := lexLt s.data t.data

/-- Python `s <= t` on strings. -/
def strLe (s t : String) : Bool := !(strLt t s)

/-- The `≤` relation used to model Python's `sorted` on file names. -/
def StrLeP (a b : String) : Prop := strLe a b = true

instance : DecidableRel StrLeP := fun a b => by unfold StrLeP; infer_instance

/-! ## Python string helpers used by the source -/

/-- Characters Python's `str.strip()` removes (ASCII whitespace; the
source never produces non-ASCII whitespace around transcripts). -/
def isPySpace (c : Char) : Bool :=
  c == (' ') || c == ('\t') || c == ('\n') || c == ('\r') ||
  c.toNat == 11 || c.toNat == 12

/-- Python `str.strip()` on a character list. -/
def pyStripL (cs : List Char) : List Char :=
  ((cs.dropWhile isPySpace).reverse.dropWhile isPySpace).reverse

/-- Python `text.strip()`. -/
def pyStrip (s : String) : String := String.mk (pyStripL s.data)

/-- Python `s.startswith(p)` (character-list form). -/
def beginsWith : List Char → List Char → Bool
  | [], _ => true
  | _ :: _, [] => false
  | p :: ps, c :: cs => p == c && beginsWith ps cs

/-- Python `s.endswith(sfx)` (character-list form). -/
def endsWithL (sfx cs : List Char) : Bool := beginsWith sfx.reverse cs.reverse

/-- The filter of line 136 / 167: `f.startswith("seg_") and
f.endswith(".wav")`. -/
def isSegFile (f : String) : Bool :=
  beginsWith (("seg_").data) f.data && endsWithL ((".wav").data) f.data

/-- Python `os.path.splitext(f)[0]`: everything before the last dot, the
whole name when there is no dot.  (Python's special case for names made
only of leading dots cannot occur here: every name this is applied to
starts with the character `s`.) -/
def splitextRoot (cs : List Char) : List Char :=
  if ('.') ∈ cs then ((cs.reverse.dropWhile (fun c => c ≠ ('.'))).drop 1).reverse
  else cs

/-- Python `s.split("_")[-1]`: the part after the last underscore, the
whole string when there is none. -/
def lastUscoreField (cs : List Char) : List Char :=
  (cs.reverse.takeWhile (fun c => c ≠ ('_'))).reverse

/-- ASCII decimal digit test. -/
def isDigitCh (c : Char) : Bool := 48 ≤ c.toNat && c.toNat ≤ 57

/-- Numeric value of a list of decimal digit characters. -/
def digitsVal (cs : List Char) : Nat :=
  cs.foldl (fun acc c => 10 * acc + (c.toNat - 48)) 0

/-- Python `int(s)` on a stripped string: optional sign followed by one
or more ASCII decimal digits, `none` when the call would raise
`ValueError`.  (Digit-group underscores cannot occur in the fields this
is applied to, which come from `split("_")`; non-ASCII decimal digits
are not modelled.) -/
def pyIntCore : List Char → Option Int
  | [] => none
  | c :: rest =>
    if c == ('-') then
      if rest.isEmpty then none
      else if rest.all isDigitCh then some (-(digitsVal rest : Int)) else none
    else if c == ('+') then
      if rest.isEmpty then none
      else if rest.all isDigitCh then some ((digitsVal rest : Int)) else none
    else if (c :: rest).all isDigitCh then some ((digitsVal (c :: rest) : Int))
    else none

/-- Python `int(s)` (which strips surrounding whitespace first). -/
def pyInt (cs : List Char) : Option Int := pyIntCore (pyStripL cs)

/-- Line 149: `int(os.path.splitext(f)[0].split("_")[-1])`, with `none`
for the `except` branch. -/
def parseSegIdx (f : String) : Option Int :=
  pyInt (lastUscoreField (splitextRoot f.data))

/-! ## The segment file naming pattern `seg_%05d.wav` (line 106) -/

/-- The `w` decimal digits of `i` (most significant first), as produced
by a zero-padded `%0wd` conversion for `i < 10 ^ w`. -/
def digitsBE : Nat → Nat → List Nat
  | 0, _ => []
  | w + 1, i => (i / 10 ^ w) % 10 :: digitsBE w i

/-- The ASCII character of a decimal digit. -/
def digitChar (d : Nat) : Char := Char.ofNat (48 + d)

/-- The five zero-padded digit characters of `%05d` for `i < 100000`. -/
def pad5 (i : Nat) : List Char := (digitsBE 5 i).map digitChar

/-- The segment file name `ffmpeg` produces from the pattern
`seg_%05d.wav` of line 106, for sequence index `i < 100000`. -/
def segFileName (i : Nat) : String :=
  String.mk ((("seg_").data) ++ pad5 i ++ ((".wav").data))

/-! ## Directory snapshots and the poll/drain scans (lines 132-181) -/

/-- File names of a directory snapshot (`os.listdir`). -/
def namesOf (dir : List (String × Nat)) : List String := dir.map (fun p => p.1)

/-- Line 141 / 171: `os.path.getsize` against the snapshot. -/
def fileSize (dir : List (String × Nat)) (f : String) : Nat :=
  match dir.find? (fun p => p.1 == f) with
  | some p => p.2
  | none => 0

/-- Lines 136 / 167: `sorted(f for f in os.listdir(tmp) if
f.startswith("seg_") and f.endswith(".wav"))`. -/
def listSegs (dir : List (String × Nat)) : List String :=
  List.insertionSort StrLeP ((namesOf dir).filter isSegFile)

/-- The timestamp window of lines 150-152: `start = idx *
segment_seconds`, `end = start + segment_seconds`, formatted
`f"[{start:>5d}-{end:>5d}s] "`. -/
def padIntW5 (n : Int) : String :=
  let s := toString n
  String.mk (List.replicate (5 - s.length) (' ')) ++ s

/-- The window string `f"[{start:>5d}-{end:>5d}s] "` for index `idx` and
segment duration `S`. -/
def tsWindow (idx : Int) (S : Nat) : String :=
  ("[") ++ padIntW5 (idx * (S : Int)) ++ ("-") ++ padIntW5 (idx * (S : Int) + (S : Int)) ++ ("s] ")

/-- Lines 148-154: the window, or the empty string when parsing the
index raised (`except` branch). -/
def tsWindowO (o : Option Int) (S : Nat) : String :=
  match o with
  | some i => tsWindow i S
  | none => ("")

/-- The line emitted for one dispatched segment.  In the running poll
loop (`drainMode = false`) this is lines 146-157: window-prefixed when
timestamps are on.  In the drain block (`drainMode = true`) this is line
176: `text.strip()` with no window regardless of the timestamp flag. -/
def mkLine (drainMode ts : Bool) (S : Nat) (f text : String) : String :=
  if drainMode then pyStrip text
  else if ts then tsWindowO (parseSegIdx f) S ++ pyStrip text
  else pyStrip text

/-- Result of running one scan's dispatch loop over its `new_files`
list: the files committed to `processed`, the lines printed, and the
exception (if any) that aborted the loop. -/
structure ScanOut where
  dispatched : List String
  lines : List String
  err : Option String
deriving DecidableEq

/-- The dispatch loop shared by lines 138-161 and 169-179: walk
`new_files` in order; skip files of size below 64 bytes (lines 141-142 /
171-172) without recording them; otherwise add to `processed` (line 143
/ 173), transcribe, and emit a line.  A transcription exception aborts
the loop: the failing file is already in `processed`, no line is printed
for it, and no later file is reached. -/
def dispatchFiles (drainMode ts : Bool) (S : Nat)
    (trans : String → Except String String)
    (dir : List (String × Nat)) : List String → ScanOut
  | [] => { dispatched := [], lines := [], err := none }
  | f :: rest =>
    if fileSize dir f < 64 then dispatchFiles drainMode ts S trans dir rest
    else
      match trans f with
      | Except.error e => { dispatched := [f], lines := [], err := some e }
      | Except.ok text =>
        let out := dispatchFiles drainMode ts S trans dir rest
        { dispatched := f :: out.dispatched
          lines := mkLine drainMode ts S f text :: out.lines
          err := out.err }

/-- Result of one full scan (listing + filtering + dispatch loop). -/
structure ScanRes where
  processed : List String
  dispatched : List String
  lines : List String
  err : Option String
deriving DecidableEq

/-- One scan of the scratch directory: list and sort the segment files,
drop the ones already in `processed` (line 137 / 168), and run the
dispatch loop. -/
def scanDir (drainMode ts : Bool) (S : Nat)
    (trans : String → Except String String)
    (dir : List (String × Nat)) (processed : List String) : ScanRes :=
  let files := listSegs dir
  let newFiles := files.filter (fun f => !(processed.contains f))
  let out := dispatchFiles drainMode ts S trans dir newFiles
  { processed := processed ++ out.dispatched
    dispatched := out.dispatched
    lines := out.lines
    err := out.err }

/-- The poll-phase scan of lines 136-161. -/
def mainScan (ts : Bool) (S : Nat) (trans : String → Except String String)
    (dir : List (String × Nat)) (processed : List String) : ScanRes :=
  scanDir false ts S trans dir processed

/-- The drain scan of lines 167-179, run once `proc.poll()` reports the
capture process has exited. -/
def drainScan (ts : Bool) (S : Nat) (trans : String → Except String String)
    (dir : List (String × Nat)) (processed : List String) : ScanRes :=
  scanDir true ts S trans dir processed

/-- One completed iteration of the `while True` loop: the directory
snapshot its listing saw, the value `proc.poll()` returned after the
dispatch phase (line 164), and the snapshot the drain listing (line 167)
would see if the exit is observed in this iteration. -/
structure PollRound where
  dir : List (String × Nat)
  exit : Option Int
  drainDir : List (String × Nat)

/-- How the live session ended. -/
inductive Outcome
  | drained (code : Int)
  | interrupted
  | errored (e : String)
deriving DecidableEq

/-- Whether the session ended by a propagating exception. -/
def Outcome.isError : Outcome → Bool
  | Outcome.errored _ => true
  | _ => false

/-- Observable session-teardown events, in order of occurrence:
`proc.send_signal(signal.SIGINT)` (line 184), `proc.wait()` (line 187),
and removal of the scratch directory when the `TemporaryDirectory`
context of line 105 exits. -/
inductive SessionEvent
  | sigint
  | waitExit
  | rmScratch
deriving DecidableEq

/-- Observable result of a live session. -/
structure RunOut where
  lines : List String
  processed : List String
  dispatched : List String
  outcome : Outcome
  events : List SessionEvent
deriving DecidableEq

/-- The `while True` loop of lines 134-181 plus the
`KeyboardInterrupt` handler of lines 182-188.  Each `PollRound` is one
completed iteration; exhausting the round list models the operator
interrupt arriving during the following `time.sleep(0.3)`.  On
interrupt the handler signals the process, waits for it, and falls out
of the `with` block (which removes the scratch directory) WITHOUT any
further scan.  A transcription exception propagates out of the loop
(only `KeyboardInterrupt` is caught), the `with` block still removing
the directory. -/
def liveLoop (ts : Bool) (S : Nat) (trans : String → Except String String) :
    List PollRound → List String → RunOut
  | [], processed =>
    { lines := [], processed := processed, dispatched := []
      outcome := Outcome.interrupted
      events := [SessionEvent.sigint, SessionEvent.waitExit, SessionEvent.rmScratch] }
  | r :: rest, processed =>
    let m := mainScan ts S trans r.dir processed
    match m.err with
    | some e =>
      { lines := m.lines, processed := m.processed, dispatched := m.dispatched
        outcome := Outcome.errored e, events := [SessionEvent.rmScratch] }
    | none =>
      match r.exit with
      | some code =>
        let d := drainScan ts S trans r.drainDir m.processed
        { lines := m.lines ++ d.lines
          processed := d.processed
          dispatched := m.dispatched ++ d.dispatched
          outcome := match d.err with
            | some e => Outcome.errored e
            | none => Outcome.drained code
          events := [SessionEvent.rmScratch] }
      | none =>
        let k := liveLoop ts S trans rest m.processed
        { lines := m.lines ++ k.lines
          processed := k.processed
          dispatched := m.dispatched ++ k.dispatched
          outcome := k.outcome
          events := k.events }

/-- A whole live session (`segment_and_transcribe_live`), started with
an empty `processed` set (line 132).  `_scratchAtInterrupt` is the
scratch directory's contents at the moment a `KeyboardInterrupt`
arrives; the code never reads it (the handler of lines 182-188 performs
no further scan), which is why the result does not depend on it. -/
def liveRun (ts : Bool) (S : Nat) (trans : String → Except String String)
    (rounds : List PollRound) (_scratchAtInterrupt : List (String × Nat)) : RunOut :=
  liveLoop ts S trans rounds []

/-! ## Engine selection (`transcribe_file`, lines 191-205) -/

/-- Python `s.lower()` on ASCII letters (the engine names involved are
ASCII). -/
def pyLower (s : String) : String :=
  String.mk (s.data.map (fun c =>
    if 65 ≤ c.toNat && c.toNat ≤ 90 then Char.ofNat (c.toNat + 32) else c))

/-- The concrete branch `transcribe_file` dispatches to. -/
inductive EngineBranch
  | faster
  | whisper
  | unknown (e : String)
deriving DecidableEq

/-- Whether the unknown-engine `ValueError` branch of line 205 was
reached. -/
def EngineBranch.isUnknown : EngineBranch → Bool
  | EngineBranch.unknown _ => true
  | _ => false

/-- Lines 192-205: lower-case the engine name, resolve `auto` to
`faster` when `import faster_whisper` succeeds and to `whisper`
otherwise, then dispatch; any other resolved name reaches the
`ValueError` branch. -/
def engineDispatch (engine : String) (fasterAvailable : Bool) : EngineBranch :=
  let e := pyLower engine
  let e2 :=
    if e == ("auto" : String) then
      (if fasterAvailable then ("faster" : String) else ("whisper" : String))
    else e
  if e2 == ("faster" : String) then EngineBranch.faster
  else if e2 == ("whisper" : String) then EngineBranch.whisper
  else EngineBranch.unknown e2

/-- The engine values `main` accepts for `--engine` (line 265). -/
def cliEngineChoices : List String := [("auto"), ("faster"), ("whisper")]

end Sys2txt

namespace Sys2txt

/-! ## Order lemmas for the lexicographic comparison -/

theorem charToNat_inj {a b : Char} (h : a.toNat = b.toNat) : a = b := by
  have h2 := congrArg Char.ofNat h
  rwa [Char.ofNat_toNat, Char.ofNat_toNat] at h2

theorem lexLt_cons (a b : Char) (as bs : List Char) :
    lexLt (a :: as) (b :: bs) =
      (if a.toNat < b.toNat then true
       else if b.toNat < a.toNat then false
       else lexLt as bs) := rfl

theorem lexLt_cons_true_iff (a b : Char) (as bs : List Char) :
    lexLt (a :: as) (b :: bs) = true ↔
      (a.toNat < b.toNat ∨ (a.toNat = b.toNat ∧ lexLt as bs = true)) := by
  rw [lexLt_cons]
  by_cases h1 : a.toNat < b.toNat
  · rw [if_pos h1]
    constructor
    · intro _
      exact Or.inl h1
    · intro _
      rfl
  · rw [if_neg h1]
    by_cases h2 : b.toNat < a.toNat
    · rw [if_pos h2]
      constructor
      · intro h
        exact absurd h Bool.false_ne_true
      · intro h
        rcases h with h | ⟨he, -⟩ <;> omega
    · rw [if_neg h2]
      constructor
      · intro h
        exact Or.inr ⟨by omega, h⟩
      · intro h
        rcases h with h | ⟨-, ht⟩
        · omega
        · exact ht

theorem lexLt_cons_false_iff (a b : Char) (as bs : List Char) :
    lexLt (a :: as) (b :: bs) = false ↔
      (b.toNat < a.toNat ∨ (a.toNat = b.toNat ∧ lexLt as bs = false)) := by
  rw [lexLt_cons]
  by_cases h1 : a.toNat < b.toNat
  · rw [if_pos h1]
    constructor
    · intro h
      exact absurd h.symm Bool.false_ne_true
    · intro h
      rcases h with h | ⟨he, -⟩ <;> omega
  · rw [if_neg h1]
    by_cases h2 : b.toNat < a.toNat
    · rw [if_pos h2]
      constructor
      · intro _
        exact Or.inl h2
      · intro _
        rfl
    · rw [if_neg h2]
      constructor
      · intro h
        exact Or.inr ⟨by omega, h⟩
      · intro h
        rcases h with h | ⟨-, ht⟩
        · omega
        · exact ht

theorem lexLt_irrefl : ∀ l : List Char, lexLt l l = false := by
  intro l
  induction l with
  | nil => rfl
  | cons a as ih => simp [lexLt_cons, Nat.lt_irrefl, ih]

theorem lexLt_transL : ∀ (a b c : List Char),
    lexLt a b = true → lexLt b c = true → lexLt a c = true := by
  intro a
  induction a with
  | nil =>
    intro b c h1 h2
    cases b with
    | nil => simp [lexLt] at h1
    | cons y ys =>
      cases c with
      | nil => simp [lexLt] at h2
      | cons z zs => rfl
  | cons x xs ih =>
    intro b c h1 h2
    cases b with
    | nil => simp [lexLt] at h1
    | cons y ys =>
      cases c with
      | nil => simp [lexLt] at h2
      | cons z zs =>
        rw [lexLt_cons_true_iff] at h1 h2 ⊢
        rcases h1 with h1 | ⟨h1e, h1t⟩
        · rcases h2 with h2 | ⟨h2e, h2t⟩
          · exact Or.inl (by omega)
          · exact Or.inl (by omega)
        · rcases h2 with h2 | ⟨h2e, h2t⟩
          · exact Or.inl (by omega)
          · exact Or.inr ⟨by omega, ih ys zs h1t h2t⟩

theorem lexLt_connexL : ∀ (a b : List Char),
    lexLt a b = false → lexLt b a = false → a = b := by
  intro a
  induction a with
  | nil =>
    intro b h1 _
    cases b with
    | nil => rfl
    | cons y ys => simp [lexLt] at h1
  | cons x xs ih =>
    intro b h1 h2
    cases b with
    | nil => simp [lexLt] at h2
    | cons y ys =>
      rw [lexLt_cons_false_iff] at h1 h2
      rcases h1 with h1 | ⟨h1e, h1t⟩
      · rcases h2 with h2 | ⟨h2e, h2t⟩
        · omega
        · omega
      · rcases h2 with h2 | ⟨h2e, h2t⟩
        · omega
        · rw [charToNat_inj h1e, ih ys h1t h2t]

theorem string_data_inj {s t : String} (h : s.data = t.data) : s = t := by
  cases s
  cases t
  exact congrArg String.mk h

theorem strLt_irrefl (s : String) : strLt s s = false := lexLt_irrefl s.data

theorem strLt_trans {a b c : String} (h1 : strLt a b = true) (h2 : strLt b c = true) :
    strLt a c = true := lexLt_transL a.data b.data c.data h1 h2

theorem strLt_connex {a b : String} (h1 : strLt a b = false) (h2 : strLt b a = false) :
    a = b := string_data_inj (lexLt_connexL a.data b.data h1 h2)

theorem strLt_ne {a b : String} (h : strLt a b = true) : a ≠ b := by
  intro he
  rw [he, strLt_irrefl] at h
  exact Bool.false_ne_true h

theorem strLt_asymm {a b : String} (h : strLt a b = true) : strLt b a = false := by
  cases hba : strLt b a with
  | false => rfl
  | true =>
    have h3 := strLt_trans hba h
    rw [strLt_irrefl] at h3
    exact absurd h3 Bool.false_ne_true

theorem strLe_transB {a b c : String} (h1 : strLe a b = true) (h2 : strLe b c = true) :
    strLe a c = true := by
  unfold strLe at h1 h2 ⊢
  rw [Bool.not_eq_true'] at h1 h2 ⊢
  cases hca : strLt c a with
  | false => rfl
  | true =>
    exfalso
    cases hab : strLt a b with
    | true =>
      have h3 := strLt_trans hca hab
      rw [h2] at h3
      exact Bool.false_ne_true h3
    | false =>
      have hab2 : a = b := strLt_connex hab h1
      rw [hab2, h2] at hca
      exact Bool.false_ne_true hca

theorem strLe_totalB (a b : String) : (strLe a b || strLe b a) = true := by
  unfold strLe
  cases hab : strLt a b with
  | false => simp
  | true => simp [strLt_asymm hab]

theorem strLt_of_strLe_of_ne {a b : String} (h1 : strLe a b = true) (h2 : a ≠ b) :
    strLt a b = true := by
  unfold strLe at h1
  rw [Bool.not_eq_true'] at h1
  cases hab : strLt a b with
  | true => rfl
  | false => exact absurd (strLt_connex hab h1) h2

instance : IsTotal String StrLeP where
  total a b := by
    have h := strLe_totalB a b
    rw [Bool.or_eq_true] at h
    exact h

instance : IsTrans String StrLeP where
  trans _ _ _ := strLe_transB

end Sys2txt

namespace Sys2txt

/-! ## Numeric facts about the zero-padded naming pattern -/

/-- Lexicographic strict comparison of digit lists. -/
def lexNatLt : List Nat → List Nat → Bool
  | [], [] => false
  | [], _ :: _ => true
  | _ :: _, [] => false
  | a :: as, b :: bs =>
    if a < b then true else if b < a then false else lexNatLt as bs

theorem lexNatLt_cons (a b : Nat) (as bs : List Nat) :
    lexNatLt (a :: as) (b :: bs) =
      (if a < b then true else if b < a then false else lexNatLt as bs) := rfl

theorem lexNatLt_cons_true_iff (a b : Nat) (as bs : List Nat) :
    lexNatLt (a :: as) (b :: bs) = true ↔
      (a < b ∨ (a = b ∧ lexNatLt as bs = true)) := by
  rw [lexNatLt_cons]
  by_cases h1 : a < b
  · rw [if_pos h1]
    constructor
    · intro _
      exact Or.inl h1
    · intro _
      rfl
  · rw [if_neg h1]
    by_cases h2 : b < a
    · rw [if_pos h2]
      constructor
      · intro h
        exact absurd h Bool.false_ne_true
      · intro h
        rcases h with h | ⟨he, -⟩ <;> omega
    · rw [if_neg h2]
      constructor
      · intro h
        exact Or.inr ⟨by omega, h⟩
      · intro h
        rcases h with h | ⟨-, ht⟩
        · omega
        · exact ht

theorem block_lt {p q1 q2 r1 r2 : Nat} (hr1 : r1 < p) (hr2 : r2 < p) :
    (q1 < q2 ∨ (q1 = q2 ∧ r1 < r2)) ↔ r1 + p * q1 < r2 + p * q2 := by
  constructor
  · intro h
    rcases h with h | ⟨he, hr⟩
    · have h1 : r1 + p * q1 < p * (q1 + 1) := by
        rw [Nat.mul_succ]
        omega
      have h2 : p * (q1 + 1) ≤ p * q2 := Nat.mul_le_mul_left p h
      omega
    · subst he
      omega
  · intro h
    rcases Nat.lt_trichotomy q1 q2 with hq | hq | hq
    · exact Or.inl hq
    · subst hq
      exact Or.inr ⟨rfl, by omega⟩
    · exfalso
      have h1 : r2 + p * q2 < p * (q2 + 1) := by
        rw [Nat.mul_succ]
        omega
      have h2 : p * (q2 + 1) ≤ p * q1 := Nat.mul_le_mul_left p hq
      omega

theorem lexNatLt_digitsBE : ∀ (w i j : Nat),
    (lexNatLt (digitsBE w i) (digitsBE w j) = true ↔ i % 10 ^ w < j % 10 ^ w) := by
  intro w
  induction w with
  | zero =>
    intro i j
    simp [digitsBE, lexNatLt, Nat.mod_one]
  | succ w ih =>
    intro i j
    have hp : (0 : Nat) < 10 ^ w := Nat.pos_pow_of_pos w (by norm_num)
    have h1 : i % 10 ^ w < 10 ^ w := Nat.mod_lt _ hp
    have h2 : j % 10 ^ w < 10 ^ w := Nat.mod_lt _ hp
    simp only [digitsBE]
    rw [lexNatLt_cons_true_iff, ih, block_lt h1 h2, pow_succ, Nat.mod_mul, Nat.mod_mul]

theorem digitsBE_length : ∀ (w i : Nat), (digitsBE w i).length = w := by
  intro w
  induction w with
  | zero => intro i; rfl
  | succ w ih => intro i; simp [digitsBE, ih]

theorem digitsBE_lt : ∀ (w i : Nat), ∀ d ∈ digitsBE w i, d < 10 := by
  intro w
  induction w with
  | zero =>
    intro i d hd
    simp [digitsBE] at hd
  | succ w ih =>
    intro i d hd
    simp only [digitsBE, List.mem_cons] at hd
    rcases hd with h | h
    · subst h
      exact Nat.mod_lt _ (by norm_num)
    · exact ih i d h

theorem pad5_length (i : Nat) : (pad5 i).length = 5 := by
  simp [pad5, digitsBE_length]

theorem digitChar_toNat {d : Nat} (h : d < 10) : (digitChar d).toNat = 48 + d := by
  interval_cases d <;> rfl

theorem lexLt_map_digitChar : ∀ (ds es : List Nat),
    (∀ d ∈ ds, d < 10) → (∀ d ∈ es, d < 10) →
    lexLt (ds.map digitChar) (es.map digitChar) = lexNatLt ds es := by
  intro ds
  induction ds with
  | nil =>
    intro es _ _
    cases es <;> rfl
  | cons d ds2 ih =>
    intro es hd he
    cases es with
    | nil => rfl
    | cons e es2 =>
      simp only [List.map_cons]
      rw [lexLt_cons, lexNatLt_cons]
      rw [digitChar_toNat (hd d (by simp)), digitChar_toNat (he e (by simp))]
      by_cases h1 : d < e
      · rw [if_pos (by omega : 48 + d < 48 + e), if_pos h1]
      · by_cases h2 : e < d
        · rw [if_neg (by omega : ¬ 48 + d < 48 + e), if_pos (by omega : 48 + e < 48 + d),
            if_neg h1, if_pos h2]
        · rw [if_neg (by omega : ¬ 48 + d < 48 + e), if_neg (by omega : ¬ 48 + e < 48 + d),
            if_neg h1, if_neg h2]
          exact ih es2 (fun x hx => hd x (by simp [hx])) (fun x hx => he x (by simp [hx]))

theorem lexLt_append_left : ∀ (p a b : List Char), lexLt (p ++ a) (p ++ b) = lexLt a b := by
  intro p a b
  induction p with
  | nil => rfl
  | cons x xs ih =>
    simp only [List.cons_append]
    rw [lexLt_cons, if_neg (Nat.lt_irrefl _), if_neg (Nat.lt_irrefl _), ih]

theorem lexLt_append_suffix : ∀ (a b s : List Char), a.length = b.length →
    lexLt (a ++ s) (b ++ s) = lexLt a b := by
  intro a
  induction a with
  | nil =>
    intro b s hl
    cases b with
    | nil =>
      simp only [List.nil_append]
      rw [lexLt_irrefl]
      rfl
    | cons y ys => simp at hl
  | cons x xs ih =>
    intro b s hl
    cases b with
    | nil => simp at hl
    | cons y ys =>
      simp only [List.cons_append]
      rw [lexLt_cons, lexLt_cons]
      by_cases h1 : x.toNat < y.toNat
      · rw [if_pos h1, if_pos h1]
      · by_cases h2 : y.toNat < x.toNat
        · rw [if_neg h1, if_pos h2, if_neg h1, if_pos h2]
        · rw [if_neg h1, if_neg h2, if_neg h1, if_neg h2]
          exact ih ys s (by simpa using hl)

/-- Heart of C7: on canonical five-digit names, the code-point
lexicographic order coincides with numeric index order. -/
theorem segFileName_lt_iff (i j : Nat) (hi : i < 100000) (hj : j < 100000) :
    (strLt (segFileName i) (segFileName j) = true ↔ i < j) := by
  show (lexLt ((("seg_").data) ++ pad5 i ++ ((".wav").data))
      ((("seg_").data) ++ pad5 j ++ ((".wav").data)) = true ↔ i < j)
  rw [List.append_assoc, List.append_assoc, lexLt_append_left,
    lexLt_append_suffix _ _ _ (by rw [pad5_length, pad5_length])]
  unfold pad5
  rw [lexLt_map_digitChar _ _ (digitsBE_lt 5 i) (digitsBE_lt 5 j), lexNatLt_digitsBE]
  have h5 : (10 : Nat) ^ 5 = 100000 := by norm_num
  rw [h5, Nat.mod_eq_of_lt hi, Nat.mod_eq_of_lt hj]

end Sys2txt

namespace Sys2txt

/-! ## Behaviour of the dispatch loop -/

/-- The transcript text of a successful oracle call. -/
def okText : Except String String → String
  | Except.ok t => t
  | Except.error _ => ("")

/-- Whether a file's snapshot size passes the 64-byte finalization check
of lines 141 / 171. -/
def ready (dir : List (String × Nat)) (f : String) : Bool :=
  decide (64 ≤ fileSize dir f)

/-- The transcription oracle never raises. -/
def noErr (trans : String → Except String String) : Prop :=
  ∀ f e, trans f ≠ Except.error e

theorem ready_eq_true_iff (dir : List (String × Nat)) (f : String) :
    ready dir f = true ↔ ¬ fileSize dir f < 64 := by
  simp only [ready, decide_eq_true_eq]
  omega

theorem df_dispatched_sublist (dm ts : Bool) (S : Nat)
    (trans : String → Except String String) (dir : List (String × Nat)) :
    ∀ fs : List String, (dispatchFiles dm ts S trans dir fs).dispatched.Sublist fs := by
  intro fs
  induction fs with
  | nil => simp [dispatchFiles]
  | cons f rest ih =>
    simp only [dispatchFiles]
    by_cases h : fileSize dir f < 64
    · rw [if_pos h]
      exact ih.cons f
    · rw [if_neg h]
      cases ht : trans f with
      | error e => exact (List.nil_sublist rest).cons₂ f
      | ok text => exact ih.cons₂ f

theorem df_dispatched_ready (dm ts : Bool) (S : Nat)
    (trans : String → Except String String) (dir : List (String × Nat)) :
    ∀ fs : List String, ∀ f ∈ (dispatchFiles dm ts S trans dir fs).dispatched,
      64 ≤ fileSize dir f := by
  intro fs
  induction fs with
  | nil => simp [dispatchFiles]
  | cons g rest ih =>
    intro f hf
    simp only [dispatchFiles] at hf
    by_cases h : fileSize dir g < 64
    · rw [if_pos h] at hf
      exact ih f hf
    · rw [if_neg h] at hf
      cases ht : trans g with
      | error e =>
        rw [ht] at hf
        simp only [List.mem_singleton] at hf
        subst hf
        omega
      | ok text =>
        rw [ht] at hf
        simp only [List.mem_cons] at hf
        rcases hf with hf | hf
        · subst hf
          omega
        · exact ih f hf

theorem df_err_none (dm ts : Bool) (S : Nat)
    (trans : String → Except String String) (dir : List (String × Nat))
    (hne : noErr trans) :
    ∀ fs : List String, (dispatchFiles dm ts S trans dir fs).err = none := by
  intro fs
  induction fs with
  | nil => rfl
  | cons f rest ih =>
    simp only [dispatchFiles]
    by_cases h : fileSize dir f < 64
    · rw [if_pos h]
      exact ih
    · rw [if_neg h]
      cases ht : trans f with
      | error e => exact absurd ht (hne f e)
      | ok text => exact ih

theorem df_dispatched_eq (dm ts : Bool) (S : Nat)
    (trans : String → Except String String) (dir : List (String × Nat)) :
    ∀ fs : List String, (dispatchFiles dm ts S trans dir fs).err = none →
      (dispatchFiles dm ts S trans dir fs).dispatched = fs.filter (ready dir) := by
  intro fs
  induction fs with
  | nil => intro _; rfl
  | cons f rest ih =>
    intro he
    simp only [dispatchFiles] at he ⊢
    by_cases h : fileSize dir f < 64
    · rw [if_pos h] at he ⊢
      rw [List.filter_cons_of_neg (by simp [ready_eq_true_iff, h])]
      exact ih he
    · rw [if_neg h] at he ⊢
      cases ht : trans f with
      | error e =>
        rw [ht] at he
        simp at he
      | ok text =>
        rw [ht] at he
        rw [List.filter_cons_of_pos ((ready_eq_true_iff dir f).mpr h)]
        simp only []
        rw [ih he]

theorem df_lines_eq (dm ts : Bool) (S : Nat)
    (trans : String → Except String String) (dir : List (String × Nat)) :
    ∀ fs : List String, (dispatchFiles dm ts S trans dir fs).err = none →
      (dispatchFiles dm ts S trans dir fs).lines =
        (dispatchFiles dm ts S trans dir fs).dispatched.map
          (fun f => mkLine dm ts S f (okText (trans f))) := by
  intro fs
  induction fs with
  | nil => intro _; rfl
  | cons f rest ih =>
    intro he
    simp only [dispatchFiles] at he ⊢
    by_cases h : fileSize dir f < 64
    · rw [if_pos h] at he ⊢
      exact ih he
    · rw [if_neg h] at he ⊢
      cases ht : trans f with
      | error e =>
        rw [ht] at he
        simp at he
      | ok text =>
        rw [ht] at he
        simp only [List.map_cons]
        rw [ih he, ht]
        simp [okText]

end Sys2txt

namespace Sys2txt

/-! ## Behaviour of one scan -/

theorem contains_iff_mem (l : List String) (a : String) :
    l.contains a = true ↔ a ∈ l := List.elem_iff

theorem scanDir_dispatched (dm ts : Bool) (S : Nat)
    (trans : String → Except String String)
    (dir : List (String × Nat)) (processed : List String) :
    (scanDir dm ts S trans dir processed).dispatched =
      (dispatchFiles dm ts S trans dir
        ((listSegs dir).filter (fun g => !(processed.contains g)))).dispatched := rfl

theorem scanDir_lines (dm ts : Bool) (S : Nat)
    (trans : String → Except String String)
    (dir : List (String × Nat)) (processed : List String) :
    (scanDir dm ts S trans dir processed).lines =
      (dispatchFiles dm ts S trans dir
        ((listSegs dir).filter (fun g => !(processed.contains g)))).lines := rfl

theorem scanDir_err (dm ts : Bool) (S : Nat)
    (trans : String → Except String String)
    (dir : List (String × Nat)) (processed : List String) :
    (scanDir dm ts S trans dir processed).err =
      (dispatchFiles dm ts S trans dir
        ((listSegs dir).filter (fun g => !(processed.contains g)))).err := rfl

theorem scanDir_processed_eq (dm ts : Bool) (S : Nat)
    (trans : String → Except String String)
    (dir : List (String × Nat)) (processed : List String) :
    (scanDir dm ts S trans dir processed).processed =
      processed ++ (scanDir dm ts S trans dir processed).dispatched := rfl

theorem scanDir_err_none (dm ts : Bool) (S : Nat)
    (trans : String → Except String String)
    (dir : List (String × Nat)) (processed : List String)
    (hne : noErr trans) :
    (scanDir dm ts S trans dir processed).err = none := by
  rw [scanDir_err]
  exact df_err_none dm ts S trans dir hne _

theorem listSegs_perm (dir : List (String × Nat)) :
    (listSegs dir).Perm ((namesOf dir).filter isSegFile) :=
  List.perm_insertionSort _ _

theorem mem_listSegs_iff (dir : List (String × Nat)) (f : String) :
    f ∈ listSegs dir ↔ (f ∈ namesOf dir ∧ isSegFile f = true) := by
  rw [(listSegs_perm dir).mem_iff, List.mem_filter]

theorem listSegs_nodup (dir : List (String × Nat))
    (h : (namesOf dir).Nodup) : (listSegs dir).Nodup := by
  rw [(listSegs_perm dir).nodup_iff]
  exact h.filter _

theorem listSegs_sorted (dir : List (String × Nat)) :
    List.Pairwise (fun a b => strLe a b = true) (listSegs dir) :=
  List.sorted_insertionSort StrLeP _

theorem listSegs_pairwise_lt (dir : List (String × Nat))
    (h : (namesOf dir).Nodup) :
    List.Pairwise (fun a b => strLt a b = true) (listSegs dir) := by
  have hs := listSegs_sorted dir
  have hn : (listSegs dir).Nodup := listSegs_nodup dir h
  exact (hs.and hn).imp (fun hab => strLt_of_strLe_of_ne hab.1 hab.2)

theorem scan_dispatched_sublist (dm ts : Bool) (S : Nat)
    (trans : String → Except String String)
    (dir : List (String × Nat)) (processed : List String) :
    (scanDir dm ts S trans dir processed).dispatched.Sublist (listSegs dir) := by
  rw [scanDir_dispatched]
  exact (df_dispatched_sublist dm ts S trans dir _).trans (List.filter_sublist _)

theorem scan_dispatched_mem (dm ts : Bool) (S : Nat)
    (trans : String → Except String String)
    (dir : List (String × Nat)) (processed : List String)
    (f : String) (hf : f ∈ (scanDir dm ts S trans dir processed).dispatched) :
    f ∈ namesOf dir ∧ isSegFile f = true ∧ f ∉ processed ∧ 64 ≤ fileSize dir f := by
  rw [scanDir_dispatched] at hf
  have hrd := df_dispatched_ready dm ts S trans dir _ f hf
  have hnf := (df_dispatched_sublist dm ts S trans dir _).subset hf
  rw [List.mem_filter] at hnf
  have hm := (mem_listSegs_iff dir f).mp hnf.1
  refine ⟨hm.1, hm.2, ?_, hrd⟩
  intro hp
  have hc := (contains_iff_mem processed f).mpr hp
  rw [hc] at hnf
  simp at hnf

theorem scan_dispatched_pairwise (dm ts : Bool) (S : Nat)
    (trans : String → Except String String)
    (dir : List (String × Nat)) (processed : List String)
    (h : (namesOf dir).Nodup) :
    List.Pairwise (fun a b => strLt a b = true)
      (scanDir dm ts S trans dir processed).dispatched :=
  List.Pairwise.sublist (scan_dispatched_sublist dm ts S trans dir processed)
    (listSegs_pairwise_lt dir h)

theorem scan_dispatched_nodup (dm ts : Bool) (S : Nat)
    (trans : String → Except String String)
    (dir : List (String × Nat)) (processed : List String)
    (h : (namesOf dir).Nodup) :
    (scanDir dm ts S trans dir processed).dispatched.Nodup :=
  (scan_dispatched_sublist dm ts S trans dir processed).nodup (listSegs_nodup dir h)

theorem scan_catches (dm ts : Bool) (S : Nat)
    (trans : String → Except String String)
    (dir : List (String × Nat)) (processed : List String)
    (he : (scanDir dm ts S trans dir processed).err = none)
    (f : String) (hmem : f ∈ namesOf dir) (hseg : isSegFile f = true)
    (hrdy : 64 ≤ fileSize dir f) :
    f ∈ (scanDir dm ts S trans dir processed).processed := by
  rw [scanDir_processed_eq]
  by_cases hp : f ∈ processed
  · exact List.mem_append_left _ hp
  · apply List.mem_append_right
    rw [scanDir_dispatched]
    rw [scanDir_err] at he
    rw [df_dispatched_eq dm ts S trans dir _ he]
    rw [List.mem_filter]
    refine ⟨?_, (ready_eq_true_iff dir f).mpr (by omega)⟩
    rw [List.mem_filter]
    refine ⟨(mem_listSegs_iff dir f).mpr ⟨hmem, hseg⟩, ?_⟩
    cases hc : processed.contains f with
    | false => rfl
    | true => exact absurd ((contains_iff_mem processed f).mp hc) hp

theorem scan_dispatched_of_ready (dm ts : Bool) (S : Nat)
    (trans : String → Except String String)
    (dir : List (String × Nat)) (processed : List String)
    (he : (scanDir dm ts S trans dir processed).err = none)
    (f : String) (hmem : f ∈ namesOf dir) (hseg : isSegFile f = true)
    (hrdy : 64 ≤ fileSize dir f) (hp : f ∉ processed) :
    f ∈ (scanDir dm ts S trans dir processed).dispatched := by
  have h := scan_catches dm ts S trans dir processed he f hmem hseg hrdy
  rw [scanDir_processed_eq] at h
  rcases List.mem_append.mp h with h | h
  · exact absurd h hp
  · exact h

theorem scan_lines_map (dm ts : Bool) (S : Nat)
    (trans : String → Except String String)
    (dir : List (String × Nat)) (processed : List String)
    (he : (scanDir dm ts S trans dir processed).err = none) :
    (scanDir dm ts S trans dir processed).lines =
      (scanDir dm ts S trans dir processed).dispatched.map
        (fun f => mkLine dm ts S f (okText (trans f))) := by
  rw [scanDir_lines, scanDir_dispatched]
  rw [scanDir_err] at he
  exact df_lines_eq dm ts S trans dir _ he

end Sys2txt

namespace Sys2txt

/-! ## Behaviour of the whole loop -/

theorem liveLoop_nil (ts : Bool) (S : Nat) (trans : String → Except String String)
    (processed : List String) :
    liveLoop ts S trans [] processed =
      { lines := [], processed := processed, dispatched := []
        outcome := Outcome.interrupted
        events := [SessionEvent.sigint, SessionEvent.waitExit, SessionEvent.rmScratch] } := rfl

theorem liveLoop_cons_err (ts : Bool) (S : Nat) (trans : String → Except String String)
    (r : PollRound) (rest : List PollRound) (processed : List String) (e : String)
    (hm : (mainScan ts S trans r.dir processed).err = some e) :
    liveLoop ts S trans (r :: rest) processed =
      { lines := (mainScan ts S trans r.dir processed).lines
        processed := (mainScan ts S trans r.dir processed).processed
        dispatched := (mainScan ts S trans r.dir processed).dispatched
        outcome := Outcome.errored e
        events := [SessionEvent.rmScratch] } := by
  simp only [liveLoop, hm]

theorem liveLoop_cons_exit (ts : Bool) (S : Nat) (trans : String → Except String String)
    (r : PollRound) (rest : List PollRound) (processed : List String) (code : Int)
    (hm : (mainScan ts S trans r.dir processed).err = none)
    (hx : r.exit = some code) :
    liveLoop ts S trans (r :: rest) processed =
      { lines := (mainScan ts S trans r.dir processed).lines ++
          (drainScan ts S trans r.drainDir (mainScan ts S trans r.dir processed).processed).lines
        processed := (drainScan ts S trans r.drainDir (mainScan ts S trans r.dir processed).processed).processed
        dispatched := (mainScan ts S trans r.dir processed).dispatched ++
          (drainScan ts S trans r.drainDir (mainScan ts S trans r.dir processed).processed).dispatched
        outcome :=
          match (drainScan ts S trans r.drainDir (mainScan ts S trans r.dir processed).processed).err with
          | some e => Outcome.errored e
          | none => Outcome.drained code
        events := [SessionEvent.rmScratch] } := by
  simp only [liveLoop, hm, hx]

theorem liveLoop_cons_cont (ts : Bool) (S : Nat) (trans : String → Except String String)
    (r : PollRound) (rest : List PollRound) (processed : List String)
    (hm : (mainScan ts S trans r.dir processed).err = none)
    (hx : r.exit = none) :
    liveLoop ts S trans (r :: rest) processed =
      { lines := (mainScan ts S trans r.dir processed).lines ++
          (liveLoop ts S trans rest (mainScan ts S trans r.dir processed).processed).lines
        processed := (liveLoop ts S trans rest (mainScan ts S trans r.dir processed).processed).processed
        dispatched := (mainScan ts S trans r.dir processed).dispatched ++
          (liveLoop ts S trans rest (mainScan ts S trans r.dir processed).processed).dispatched
        outcome := (liveLoop ts S trans rest (mainScan ts S trans r.dir processed).processed).outcome
        events := (liveLoop ts S trans rest (mainScan ts S trans r.dir processed).processed).events } := by
  simp only [liveLoop, hm, hx]

theorem mainScan_eq (ts : Bool) (S : Nat) (trans : String → Except String String)
    (dir : List (String × Nat)) (processed : List String) :
    mainScan ts S trans dir processed = scanDir false ts S trans dir processed := rfl

theorem drainScan_eq (ts : Bool) (S : Nat) (trans : String → Except String String)
    (dir : List (String × Nat)) (processed : List String) :
    drainScan ts S trans dir processed = scanDir true ts S trans dir processed := rfl

theorem loop_processed_eq (ts : Bool) (S : Nat) (trans : String → Except String String) :
    ∀ (rounds : List PollRound) (processed : List String),
    (liveLoop ts S trans rounds processed).processed =
      processed ++ (liveLoop ts S trans rounds processed).dispatched := by
  intro rounds
  induction rounds with
  | nil =>
    intro processed
    rw [liveLoop_nil]
    simp
  | cons r rest ih =>
    intro processed
    cases hm : (mainScan ts S trans r.dir processed).err with
    | some e =>
      rw [liveLoop_cons_err ts S trans r rest processed e hm]
      exact scanDir_processed_eq false ts S trans r.dir processed
    | none =>
      cases hx : r.exit with
      | some code =>
        rw [liveLoop_cons_exit ts S trans r rest processed code hm hx]
        dsimp only
        simp only [mainScan_eq, drainScan_eq]
        rw [scanDir_processed_eq true ts S trans r.drainDir
          (scanDir false ts S trans r.dir processed).processed,
          scanDir_processed_eq false ts S trans r.dir processed, List.append_assoc]
      | none =>
        rw [liveLoop_cons_cont ts S trans r rest processed hm hx]
        dsimp only
        rw [ih ((mainScan ts S trans r.dir processed).processed)]
        simp only [mainScan_eq]
        rw [scanDir_processed_eq false ts S trans r.dir processed, List.append_assoc]

theorem loop_interrupt_events (ts : Bool) (S : Nat) (trans : String → Except String String) :
    ∀ (rounds : List PollRound) (processed : List String),
    (liveLoop ts S trans rounds processed).outcome = Outcome.interrupted →
    (liveLoop ts S trans rounds processed).events =
      [SessionEvent.sigint, SessionEvent.waitExit, SessionEvent.rmScratch] := by
  intro rounds
  induction rounds with
  | nil =>
    intro processed _
    rw [liveLoop_nil]
  | cons r rest ih =>
    intro processed h
    cases hm : (mainScan ts S trans r.dir processed).err with
    | some e =>
      rw [liveLoop_cons_err ts S trans r rest processed e hm] at h
      simp at h
    | none =>
      cases hx : r.exit with
      | some code =>
        rw [liveLoop_cons_exit ts S trans r rest processed code hm hx] at h
        dsimp only at h
        cases hd : (drainScan ts S trans r.drainDir
            (mainScan ts S trans r.dir processed).processed).err with
        | some e =>
          rw [hd] at h
          simp at h
        | none =>
          rw [hd] at h
          simp at h
      | none =>
        rw [liveLoop_cons_cont ts S trans r rest processed hm hx] at h ⊢
        exact ih _ h

theorem loop_nodup (ts : Bool) (S : Nat) (trans : String → Except String String) :
    ∀ (rounds : List PollRound) (processed : List String),
    (∀ r ∈ rounds, (namesOf r.dir).Nodup ∧ (namesOf r.drainDir).Nodup) →
    (liveLoop ts S trans rounds processed).dispatched.Nodup ∧
    (∀ f ∈ (liveLoop ts S trans rounds processed).dispatched, f ∉ processed) := by
  intro rounds
  induction rounds with
  | nil =>
    intro processed _
    rw [liveLoop_nil]
    simp
  | cons r rest ih =>
    intro processed hnd
    have hr := hnd r (by simp)
    have hrest : ∀ r' ∈ rest, (namesOf r'.dir).Nodup ∧ (namesOf r'.drainDir).Nodup :=
      fun r' h => hnd r' (by simp [h])
    cases hm : (mainScan ts S trans r.dir processed).err with
    | some e =>
      rw [liveLoop_cons_err ts S trans r rest processed e hm]
      dsimp only
      simp only [mainScan_eq]
      constructor
      · exact scan_dispatched_nodup false ts S trans r.dir processed hr.1
      · intro f hf
        exact (scan_dispatched_mem false ts S trans r.dir processed f hf).2.2.1
    | none =>
      cases hx : r.exit with
      | some code =>
        rw [liveLoop_cons_exit ts S trans r rest processed code hm hx]
        dsimp only
        simp only [mainScan_eq, drainScan_eq]
        have hm1 := scan_dispatched_nodup false ts S trans r.dir processed hr.1
        have hd1 := scan_dispatched_nodup true ts S trans r.drainDir
          (scanDir false ts S trans r.dir processed).processed hr.2
        constructor
        · rw [List.nodup_append]
          refine ⟨hm1, hd1, ?_⟩
          intro f hf hg
          have h2 := (scan_dispatched_mem true ts S trans r.drainDir _ f hg).2.2.1
          rw [scanDir_processed_eq false ts S trans r.dir processed] at h2
          exact h2 (List.mem_append_right _ hf)
        · intro f hf
          rcases List.mem_append.mp hf with hf | hf
          · exact (scan_dispatched_mem false ts S trans r.dir processed f hf).2.2.1
          · have h2 := (scan_dispatched_mem true ts S trans r.drainDir _ f hf).2.2.1
            rw [scanDir_processed_eq false ts S trans r.dir processed] at h2
            intro hp
            exact h2 (List.mem_append_left _ hp)
      | none =>
        rw [liveLoop_cons_cont ts S trans r rest processed hm hx]
        dsimp only
        simp only [mainScan_eq]
        have hm1 := scan_dispatched_nodup false ts S trans r.dir processed hr.1
        have hk := ih (scanDir false ts S trans r.dir processed).processed hrest
        constructor
        · rw [List.nodup_append]
          refine ⟨hm1, hk.1, ?_⟩
          intro f hf hg
          have h2 := hk.2 f hg
          rw [scanDir_processed_eq false ts S trans r.dir processed] at h2
          exact h2 (List.mem_append_right _ hf)
        · intro f hf
          rcases List.mem_append.mp hf with hf | hf
          · exact (scan_dispatched_mem false ts S trans r.dir processed f hf).2.2.1
          · have h2 := hk.2 f hf
            rw [scanDir_processed_eq false ts S trans r.dir processed] at h2
            intro hp
            exact h2 (List.mem_append_left _ hp)

end Sys2txt

namespace Sys2txt

/-! ## Exit observed: drain then normal end -/

theorem loop_drained (ts : Bool) (S : Nat) (trans : String → Except String String)
    (hne : noErr trans) :
    ∀ (rs : List PollRound) (r : PollRound) (code : Int) (processed : List String),
    (∀ r' ∈ rs, r'.exit = none) → r.exit = some code →
    (liveLoop ts S trans (rs ++ [r]) processed).outcome = Outcome.drained code ∧
    (∀ f ∈ namesOf r.drainDir, isSegFile f = true → 64 ≤ fileSize r.drainDir f →
      f ∈ (liveLoop ts S trans (rs ++ [r]) processed).processed) := by
  intro rs
  induction rs with
  | nil =>
    intro r code processed _ hx
    have hm : (mainScan ts S trans r.dir processed).err = none := by
      rw [mainScan_eq]
      exact scanDir_err_none false ts S trans r.dir processed hne
    have hd : (drainScan ts S trans r.drainDir
        (mainScan ts S trans r.dir processed).processed).err = none := by
      rw [drainScan_eq]
      exact scanDir_err_none true ts S trans r.drainDir _ hne
    rw [List.nil_append, liveLoop_cons_exit ts S trans r [] processed code hm hx]
    dsimp only
    rw [hd]
    constructor
    · rfl
    · intro f hf hseg hrdy
      rw [drainScan_eq]
      rw [drainScan_eq] at hd
      exact scan_catches true ts S trans r.drainDir _ hd f hf hseg hrdy
  | cons r0 rs2 ih =>
    intro r code processed hpre hx
    have hm : (mainScan ts S trans r0.dir processed).err = none := by
      rw [mainScan_eq]
      exact scanDir_err_none false ts S trans r0.dir processed hne
    have hx0 : r0.exit = none := hpre r0 (by simp)
    rw [List.cons_append, liveLoop_cons_cont ts S trans r0 (rs2 ++ [r]) processed hm hx0]
    dsimp only
    exact ih r code (mainScan ts S trans r0.dir processed).processed
      (fun r' h => hpre r' (by simp [h])) hx

/-! ## Snapshot discipline and the dispatch-order invariant -/

/-- Snapshot evolution constraints of a single sequential writer: names
persist, sizes never shrink, and a name new to the later snapshot sorts
after every name of the earlier one. -/
def dirStep (d d' : List (String × Nat)) : Bool :=
  decide (∀ f ∈ namesOf d, f ∈ namesOf d') &&
  decide (∀ f ∈ namesOf d, fileSize d f ≤ fileSize d' f) &&
  decide (∀ f ∈ namesOf d', f ∉ namesOf d → ∀ g ∈ namesOf d, strLt g f = true)

/-- Well-formed snapshot: unique names, and every below-threshold
segment file sorts after every at-threshold one (the rollover
discipline: only the newest segment is still being written). -/
def dirOk (d : List (String × Nat)) : Bool :=
  decide ((namesOf d).Nodup) &&
  decide (∀ f ∈ namesOf d, ∀ g ∈ namesOf d, isSegFile f = true → isSegFile g = true →
    fileSize d f < 64 → 64 ≤ fileSize d g → strLt g f = true)

/-- The rollover discipline along a whole script: every snapshot is
well-formed and every consecutive pair of snapshots (a poll snapshot and
its drain snapshot included) satisfies `dirStep`. -/
def chainOk : List (String × Nat) → List PollRound → Bool
  | _, [] => true
  | prev, r :: rs =>
    dirStep prev r.dir && dirOk r.dir && dirStep r.dir r.drainDir && dirOk r.drainDir &&
    chainOk r.dir rs

/-- All at-threshold segment files of snapshot `d` are already in the
processed set. -/
def caughtUp (d : List (String × Nat)) (processed : List String) : Prop :=
  ∀ f ∈ namesOf d, isSegFile f = true → 64 ≤ fileSize d f → f ∈ processed

theorem dirStep_elim {d d' : List (String × Nat)} (h : dirStep d d' = true) :
    (∀ f ∈ namesOf d, f ∈ namesOf d') ∧
    (∀ f ∈ namesOf d, fileSize d f ≤ fileSize d' f) ∧
    (∀ f ∈ namesOf d', f ∉ namesOf d → ∀ g ∈ namesOf d, strLt g f = true) := by
  simp only [dirStep, Bool.and_eq_true, decide_eq_true_eq] at h
  exact ⟨h.1.1, h.1.2, h.2⟩

theorem dirOk_elim {d : List (String × Nat)} (h : dirOk d = true) :
    (namesOf d).Nodup ∧
    (∀ f ∈ namesOf d, ∀ g ∈ namesOf d, isSegFile f = true → isSegFile g = true →
      fileSize d f < 64 → 64 ≤ fileSize d g → strLt g f = true) := by
  simp only [dirOk, Bool.and_eq_true, decide_eq_true_eq] at h
  exact h

theorem chainOk_elim {prev : List (String × Nat)} {r : PollRound} {rs : List PollRound}
    (h : chainOk prev (r :: rs) = true) :
    dirStep prev r.dir = true ∧ dirOk r.dir = true ∧ dirStep r.dir r.drainDir = true ∧
    dirOk r.drainDir = true ∧ chainOk r.dir rs = true := by
  simp only [chainOk, Bool.and_eq_true] at h
  exact ⟨h.1.1.1.1, h.1.1.1.2, h.1.1.2, h.1.2, h.2⟩

theorem scan_order_bound (dm ts : Bool) (S : Nat)
    (trans : String → Except String String)
    (prev dir : List (String × Nat)) (processed : List String)
    (hOkPrev : dirOk prev = true) (hOkDir : dirOk dir = true)
    (hStep : dirStep prev dir = true) (hC : caughtUp prev processed)
    (hne : noErr trans) :
    List.Pairwise (fun a b => strLt a b = true)
      (scanDir dm ts S trans dir processed).dispatched ∧
    (∀ f ∈ (scanDir dm ts S trans dir processed).dispatched,
      ∀ g ∈ namesOf prev, isSegFile g = true → 64 ≤ fileSize prev g → strLt g f = true) ∧
    caughtUp dir (scanDir dm ts S trans dir processed).processed := by
  have hnd := (dirOk_elim hOkDir).1
  refine ⟨scan_dispatched_pairwise dm ts S trans dir processed hnd, ?_, ?_⟩
  · intro f hf g hg hgseg hgrdy
    obtain ⟨hfmem, hfseg, hfnp, hfrdy⟩ := scan_dispatched_mem dm ts S trans dir processed f hf
    by_cases hfp : f ∈ namesOf prev
    · by_cases hfr : 64 ≤ fileSize prev f
      · exact absurd (hC f hfp hfseg hfr) hfnp
      · exact (dirOk_elim hOkPrev).2 f hfp g hg hfseg hgseg (by omega) hgrdy
    · exact (dirStep_elim hStep).2.2 f hfmem hfp g hg
  · intro f hfmem hfseg hfrdy
    exact scan_catches dm ts S trans dir processed
      (scanDir_err_none dm ts S trans dir processed hne) f hfmem hfseg hfrdy

theorem loop_order (ts : Bool) (S : Nat) (trans : String → Except String String)
    (hne : noErr trans) :
    ∀ (rounds : List PollRound) (prev : List (String × Nat)) (processed : List String),
    chainOk prev rounds = true → dirOk prev = true → caughtUp prev processed →
    List.Pairwise (fun a b => strLt a b = true)
      (liveLoop ts S trans rounds processed).dispatched ∧
    (∀ f ∈ (liveLoop ts S trans rounds processed).dispatched,
      ∀ g ∈ namesOf prev, isSegFile g = true → 64 ≤ fileSize prev g → strLt g f = true) := by
  intro rounds
  induction rounds with
  | nil =>
    intro prev processed _ _ _
    rw [liveLoop_nil]
    simp
  | cons r rest ih =>
    intro prev processed hch hOkPrev hC
    obtain ⟨hs1, ho1, hs2, ho2, hch2⟩ := chainOk_elim hch
    have hm : (mainScan ts S trans r.dir processed).err = none := by
      rw [mainScan_eq]
      exact scanDir_err_none false ts S trans r.dir processed hne
    obtain ⟨hmP, hmB, hmC⟩ := scan_order_bound false ts S trans prev r.dir processed
      hOkPrev ho1 hs1 hC hne
    cases hx : r.exit with
    | some code =>
      rw [liveLoop_cons_exit ts S trans r rest processed code hm hx]
      dsimp only
      simp only [mainScan_eq, drainScan_eq]
      obtain ⟨hdP, hdB, hdC⟩ := scan_order_bound true ts S trans r.dir r.drainDir
        (scanDir false ts S trans r.dir processed).processed ho1 ho2 hs2 hmC hne
      constructor
      · rw [List.pairwise_append]
        refine ⟨hmP, hdP, ?_⟩
        intro a ha b hb
        obtain ⟨hamem, haseg, -, hardy⟩ := scan_dispatched_mem false ts S trans r.dir processed a ha
        exact hdB b hb a hamem haseg hardy
      · intro f hf g hg hgseg hgrdy
        rcases List.mem_append.mp hf with hf | hf
        · exact hmB f hf g hg hgseg hgrdy
        · have hg2 : g ∈ namesOf r.dir := (dirStep_elim hs1).1 g hg
          have hsz : 64 ≤ fileSize r.dir g := le_trans hgrdy ((dirStep_elim hs1).2.1 g hg)
          exact hdB f hf g hg2 hgseg hsz
    | none =>
      rw [liveLoop_cons_cont ts S trans r rest processed hm hx]
      dsimp only
      simp only [mainScan_eq]
      obtain ⟨hkP, hkB⟩ := ih r.dir (scanDir false ts S trans r.dir processed).processed
        hch2 ho1 hmC
      constructor
      · rw [List.pairwise_append]
        refine ⟨hmP, hkP, ?_⟩
        intro a ha b hb
        obtain ⟨hamem, haseg, -, hardy⟩ := scan_dispatched_mem false ts S trans r.dir processed a ha
        exact hkB b hb a hamem haseg hardy
      · intro f hf g hg hgseg hgrdy
        rcases List.mem_append.mp hf with hf | hf
        · exact hmB f hf g hg hgseg hgrdy
        · have hg2 : g ∈ namesOf r.dir := (dirStep_elim hs1).1 g hg
          have hsz : 64 ≤ fileSize r.dir g := le_trans hgrdy ((dirStep_elim hs1).2.1 g hg)
          exact hkB f hf g hg2 hgseg hsz

/-! ## Formatting facts -/

theorem mkLine_drain (ts : Bool) (S : Nat) (f text : String) :
    mkLine true ts S f text = pyStrip text := by
  simp [mkLine]

theorem mkLine_poll_window (S : Nat) (i : Int) (f text : String)
    (hp : parseSegIdx f = some i) :
    mkLine false true S f text =
      ("[") ++ padIntW5 (i * (S : Int)) ++ ("-") ++ padIntW5 ((i + 1) * (S : Int)) ++
        ("s] ") ++ pyStrip text := by
  have he : (i + 1) * (S : Int) = i * (S : Int) + (S : Int) := by ring
  simp only [mkLine, Bool.false_eq_true, if_false, if_true, hp, tsWindowO, tsWindow, he]

theorem mkLine_poll_no_window (S : Nat) (f text : String)
    (hp : parseSegIdx f = none) :
    mkLine false true S f text = pyStrip text := by
  simp only [mkLine, Bool.false_eq_true, if_false, if_true, hp, tsWindowO]
  rfl

end Sys2txt

namespace Sys2txt

/-! ## Concrete oracles and scripts used by witnesses and counterexamples -/

/-- A transcription oracle that always succeeds with a fixed text. -/
def transHello : String → Except String String := fun _ => Except.ok ("hello")

/-- Proof that the fixed oracle never raises. -/
theorem transHello_noErr : noErr transHello := fun _ _ h => Except.noConfusion h

/-- A transcription oracle that raises exactly on segment index 2. -/
def transFailOn2 : String → Except String String := fun f =>
  if f == ("seg_00002.wav" : String) then Except.error ("boom")
  else Except.ok (("ok ") ++ f)

/-! ## Claim C1 -/

/-- C1 counterexample: with the capture process exited, a remaining
unprocessed non-empty 40-byte segment file is NOT returned by the final
drain scan, contradicting the claim that the drain dispatches every
non-empty remaining segment regardless of size. -/
theorem c1_drain_skips_small_counterexample :
    (liveRun false 8 transHello
      [{ dir := [], exit := some 0, drainDir := [(("seg_00000.wav"), 40)] }]
      []).dispatched = [] ∧
    (liveRun false 8 transHello
      [{ dir := [], exit := some 0, drainDir := [(("seg_00000.wav"), 40)] }]
      []).lines = [] ∧
    fileSize [(("seg_00000.wav"), 40)] ("seg_00000.wav") = 40 ∧
    isSegFile ("seg_00000.wav") = true := by
  decide

/-- C1 (amended): a segment file below the 64-byte threshold is never
dispatched by a poll while the capture process runs, and — contrary to
the original claim — the final drain scan applies the SAME 64-byte
minimum, skipping remaining non-empty files below it: every file
dispatched in either phase has size at least 64 bytes in its
snapshot. -/
theorem c1_threshold_in_poll_and_drain (ts : Bool) (S : Nat)
    (trans : String → Except String String) (dir : List (String × Nat))
    (processed : List String) (f : String)
    (hf : f ∈ (mainScan ts S trans dir processed).dispatched ∨
          f ∈ (drainScan ts S trans dir processed).dispatched) :
    64 ≤ fileSize dir f := by
  rcases hf with hf | hf
  · rw [mainScan_eq] at hf
    exact (scan_dispatched_mem false ts S trans dir processed f hf).2.2.2
  · rw [drainScan_eq] at hf
    exact (scan_dispatched_mem true ts S trans dir processed f hf).2.2.2

/-- C1 witness: the threshold theorem applied at a concrete dispatched
file. -/
theorem c1_threshold_in_poll_and_drain_witness :
    64 ≤ fileSize [(("seg_00000.wav"), 100)] ("seg_00000.wav") :=
  c1_threshold_in_poll_and_drain false 8 transHello [(("seg_00000.wav"), 100)] []
    ("seg_00000.wav") (Or.inl (by decide))

/-! ## Claim C2 -/

/-- C2 (code-bug evidence): when transcription of segment 2 fails while
segments 1 and 3 would succeed, the source propagates the exception:
only segment 1's line is emitted, no inline error marker is printed,
segment 3 is never transcribed, and the session ends with the error —
contradicting the spec's isolation policy (which the spec itself flags
as the intended behaviour the source lacks). -/
theorem c2_error_aborts_session_eval :
    (liveRun false 8 transFailOn2
      [{ dir := [(("seg_00001.wav"), 100), (("seg_00002.wav"), 100), (("seg_00003.wav"), 100)],
         exit := some 0, drainDir := [] }] []).lines = [("ok seg_00001.wav")] ∧
    (liveRun false 8 transFailOn2
      [{ dir := [(("seg_00001.wav"), 100), (("seg_00002.wav"), 100), (("seg_00003.wav"), 100)],
         exit := some 0, drainDir := [] }] []).outcome = Outcome.errored ("boom") := by
  decide

/-! ## Claim C3 -/

/-- C3 counterexample: an interrupt arriving while a finalized
(100-byte) segment sits in the scratch directory ends the session with
NO line emitted for it: no drain is run on the interrupt path, so a
segment finalized before the interrupt is never emitted. -/
theorem c3_no_drain_on_interrupt_counterexample :
    (liveRun true 8 transHello [] [(("seg_00000.wav"), 100)]).lines = [] ∧
    (liveRun true 8 transHello [] [(("seg_00000.wav"), 100)]).outcome =
      Outcome.interrupted ∧
    64 ≤ fileSize [(("seg_00000.wav"), 100)] ("seg_00000.wav") ∧
    isSegFile ("seg_00000.wav") = true := by
  decide

/-- C3 (amended): on operator interrupt the session signals the capture
process, waits for its exit, and removes the scratch directory — in
that order — but performs NO final drain: the whole run result is
independent of the scratch directory contents at interrupt time, so
only segments dispatched by completed polls have been emitted. -/
theorem c3_interrupt_teardown (ts : Bool) (S : Nat)
    (trans : String → Except String String) (rounds : List PollRound)
    (d d' : List (String × Nat))
    (h : (liveRun ts S trans rounds d).outcome = Outcome.interrupted) :
    (liveRun ts S trans rounds d).events =
      [SessionEvent.sigint, SessionEvent.waitExit, SessionEvent.rmScratch] ∧
    liveRun ts S trans rounds d = liveRun ts S trans rounds d' := by
  constructor
  · exact loop_interrupt_events ts S trans rounds [] h
  · rfl

/-- C3 witness: the teardown theorem applied at a concrete interrupted
run. -/
theorem c3_interrupt_teardown_witness :
    (liveRun false 8 transHello [] []).events =
      [SessionEvent.sigint, SessionEvent.waitExit, SessionEvent.rmScratch] ∧
    liveRun false 8 transHello [] [] =
      liveRun false 8 transHello [] [(("seg_00000.wav"), 100)] :=
  c3_interrupt_teardown false 8 transHello [] [] [(("seg_00000.wav"), 100)] (by decide)

/-! ## Claim C4 -/

/-- C4 counterexample: with timestamps enabled, the segment of index 1
dispatched by the final drain is emitted as bare `hello`, not with the
claimed `[8-16)` window prefix (which the poll phase would have
produced). -/
theorem c4_drain_no_window_counterexample :
    (liveRun true 8 transHello
      [{ dir := [(("seg_00000.wav"), 100)], exit := some 0,
         drainDir := [(("seg_00000.wav"), 100), (("seg_00001.wav"), 100)] }]
      []).lines = [("[    0-    8s] hello"), ("hello")] ∧
    (("hello") : String) ≠ tsWindow 1 8 ++ ("hello") := by
  decide

/-- C4 (amended): with timestamps enabled, a segment with parseable
index `i` dispatched by a RUNNING poll is emitted with the window
`[i*S, (i+1)*S)`; a segment dispatched during the final drain is
emitted as bare stripped text with no window at all. -/
theorem c4_window_poll_only (ts : Bool) (S : Nat) (i : Int) (f text : String)
    (trans : String → Except String String) (dir dir2 : List (String × Nat))
    (processed processed2 : List String)
    (hp : parseSegIdx f = some i)
    (he : (mainScan true S trans dir processed).err = none)
    (he2 : (drainScan ts S trans dir2 processed2).err = none) :
    mkLine false true S f text =
      ("[") ++ padIntW5 (i * (S : Int)) ++ ("-") ++ padIntW5 ((i + 1) * (S : Int)) ++
        ("s] ") ++ pyStrip text ∧
    (mainScan true S trans dir processed).lines =
      (mainScan true S trans dir processed).dispatched.map
        (fun g => mkLine false true S g (okText (trans g))) ∧
    (drainScan ts S trans dir2 processed2).lines =
      (drainScan ts S trans dir2 processed2).dispatched.map
        (fun g => pyStrip (okText (trans g))) := by
  refine ⟨mkLine_poll_window S i f text hp, ?_, ?_⟩
  · rw [mainScan_eq] at he ⊢
    exact scan_lines_map false true S trans dir processed he
  · rw [drainScan_eq] at he2 ⊢
    rw [scan_lines_map true ts S trans dir2 processed2 he2]
    simp only [mkLine_drain]

/-- C4 witness: the window theorem applied at concrete inputs. -/
theorem c4_window_poll_only_witness :
    mkLine false true 8 ("seg_00003.wav") ("hello") =
      ("[") ++ padIntW5 ((3 : Int) * (8 : Int)) ++ ("-") ++
        padIntW5 ((3 + 1 : Int) * (8 : Int)) ++ ("s] ") ++ pyStrip ("hello") ∧
    (mainScan true 8 transHello [] []).lines =
      (mainScan true 8 transHello [] []).dispatched.map
        (fun g => mkLine false true 8 g (okText (transHello g))) ∧
    (drainScan false 8 transHello [] []).lines =
      (drainScan false 8 transHello [] []).dispatched.map
        (fun g => pyStrip (okText (transHello g))) :=
  c4_window_poll_only false 8 3 ("seg_00003.wav") ("hello") transHello [] [] [] []
    (by decide) (by decide) (by decide)

/-! ## Claim C5 -/

/-- C5 counterexample: a poll that sees `seg_00001.wav` still small (40
bytes) but `seg_00002.wav` already finalized dispatches index 2 before
index 1; the next poll dispatches the grown index 1 afterwards, so the
session's dispatch order 0, 2, 1 is not non-decreasing. -/
theorem c5_out_of_order_counterexample :
    (liveRun false 8 transHello
      [{ dir := [(("seg_00000.wav"), 100), (("seg_00001.wav"), 40), (("seg_00002.wav"), 100)],
         exit := none, drainDir := [] },
       { dir := [(("seg_00000.wav"), 100), (("seg_00001.wav"), 100), (("seg_00002.wav"), 100)],
         exit := some 0,
         drainDir := [(("seg_00000.wav"), 100), (("seg_00001.wav"), 100), (("seg_00002.wav"), 100)] }]
      []).dispatched =
      [("seg_00000.wav"), ("seg_00002.wav"), ("seg_00001.wav")] ∧
    ¬ List.Pairwise (fun a b => strLt a b = true)
      ((liveRun false 8 transHello
        [{ dir := [(("seg_00000.wav"), 100), (("seg_00001.wav"), 40), (("seg_00002.wav"), 100)],
           exit := none, drainDir := [] },
         { dir := [(("seg_00000.wav"), 100), (("seg_00001.wav"), 100), (("seg_00002.wav"), 100)],
           exit := some 0,
           drainDir := [(("seg_00000.wav"), 100), (("seg_00001.wav"), 100), (("seg_00002.wav"), 100)] }]
        []).dispatched) := by
  decide

/-- C5 (amended): across a whole session no segment file is ever
dispatched twice (whenever directory listings carry no duplicate
names), and the dispatch sequence is strictly increasing in
lexicographic — hence, by C7, numeric-index — order PROVIDED the
snapshots follow the single-writer rollover discipline (`chainOk`:
monotone names and sizes, new names sorting last, small segment files
sorting after finalized ones) and no transcription call raises.  The
unconditional ordering stated by the original claim is refuted by the
counterexample. -/
theorem c5_at_most_once_and_order (ts : Bool) (S : Nat)
    (trans : String → Except String String) (rounds : List PollRound)
    (d : List (String × Nat))
    (hnd : ∀ r ∈ rounds, (namesOf r.dir).Nodup ∧ (namesOf r.drainDir).Nodup) :
    (liveRun ts S trans rounds d).dispatched.Nodup ∧
    (chainOk [] rounds = true → noErr trans →
      List.Pairwise (fun a b => strLt a b = true)
        (liveRun ts S trans rounds d).dispatched) := by
  constructor
  · exact (loop_nodup ts S trans rounds [] hnd).1
  · intro hch hne
    refine (loop_order ts S trans hne rounds [] [] hch (by decide) ?_).1
    intro f hf
    simp [namesOf] at hf

/-- C5 witness: the order theorem applied at a concrete two-phase
run. -/
theorem c5_at_most_once_and_order_witness :
    (liveRun false 8 transHello
      [{ dir := [(("seg_00000.wav"), 100)], exit := some 0,
         drainDir := [(("seg_00000.wav"), 100), (("seg_00001.wav"), 100)] }]
      []).dispatched.Nodup ∧
    List.Pairwise (fun a b => strLt a b = true)
      ((liveRun false 8 transHello
        [{ dir := [(("seg_00000.wav"), 100)], exit := some 0,
           drainDir := [(("seg_00000.wav"), 100), (("seg_00001.wav"), 100)] }]
        []).dispatched) :=
  ⟨(c5_at_most_once_and_order false 8 transHello
      [{ dir := [(("seg_00000.wav"), 100)], exit := some 0,
         drainDir := [(("seg_00000.wav"), 100), (("seg_00001.wav"), 100)] }] []
      (by decide)).1,
   (c5_at_most_once_and_order false 8 transHello
      [{ dir := [(("seg_00000.wav"), 100)], exit := some 0,
         drainDir := [(("seg_00000.wav"), 100), (("seg_00001.wav"), 100)] }] []
      (by decide)).2 (by decide) transHello_noErr⟩

end Sys2txt

namespace Sys2txt

/-! ## Claim C6 -/

/-- C6 counterexample: the capture process exits with status 1, yet the
session's outcome is the same normal `drained` outcome as for a clean
exit — no error condition is surfaced at all (the return value of
`proc.poll()` is never inspected beyond not being `None`); the drain
still ran and emitted the leftover segment. -/
theorem c6_no_capture_failed_counterexample :
    (liveRun false 8 transHello
      [{ dir := [], exit := some 1, drainDir := [(("seg_00000.wav"), 100)] }]
      []).outcome = Outcome.drained 1 ∧
    Outcome.isError ((liveRun false 8 transHello
      [{ dir := [], exit := some 1, drainDir := [(("seg_00000.wav"), 100)] }]
      []).outcome) = false ∧
    (liveRun false 8 transHello
      [{ dir := [], exit := some 1, drainDir := [(("seg_00000.wav"), 100)] }]
      []).lines = [("hello")] := by
  decide

/-- C6 (amended): when the capture process exits with ANY status —
non-zero included — the session runs the final drain scan and then ends
normally: the outcome is `drained code` and is not an error condition,
so no `CaptureFailed` error is surfaced; by the time the session ends,
every at-threshold segment of the drain snapshot has been
dispatched. -/
theorem c6_nonzero_exit_no_error (ts : Bool) (S : Nat)
    (trans : String → Except String String) (rs : List PollRound) (r : PollRound)
    (code : Int) (d : List (String × Nat))
    (hne : noErr trans) (hpre : ∀ r' ∈ rs, r'.exit = none) (hx : r.exit = some code) :
    (liveRun ts S trans (rs ++ [r]) d).outcome = Outcome.drained code ∧
    Outcome.isError ((liveRun ts S trans (rs ++ [r]) d).outcome) = false ∧
    (∀ f ∈ namesOf r.drainDir, isSegFile f = true → 64 ≤ fileSize r.drainDir f →
      f ∈ (liveRun ts S trans (rs ++ [r]) d).dispatched) := by
  obtain ⟨h1, h2⟩ := loop_drained ts S trans hne rs r code [] hpre hx
  refine ⟨h1, ?_, ?_⟩
  · show Outcome.isError ((liveLoop ts S trans (rs ++ [r]) []).outcome) = false
    rw [h1]
    rfl
  · intro f hf hseg hrdy
    have h3 := h2 f hf hseg hrdy
    rw [loop_processed_eq ts S trans (rs ++ [r]) []] at h3
    simpa using h3

/-- C6 witness: the theorem applied at a concrete run with exit status
1. -/
theorem c6_nonzero_exit_no_error_witness :
    (liveRun false 8 transHello
      [{ dir := [], exit := some 1, drainDir := [(("seg_00000.wav"), 100)] }]
      []).outcome = Outcome.drained 1 ∧
    ("seg_00000.wav" : String) ∈
      (liveRun false 8 transHello
        [{ dir := [], exit := some 1, drainDir := [(("seg_00000.wav"), 100)] }]
        []).dispatched := by
  have h := c6_nonzero_exit_no_error false 8 transHello []
    { dir := [], exit := some 1, drainDir := [(("seg_00000.wav"), 100)] } 1 []
    transHello_noErr (by simp) (by decide)
  exact ⟨h.1, h.2.2 ("seg_00000.wav") (by decide) (by decide) (by decide)⟩

/-! ## Claim C7 -/

/-- C7: for five-digit zero-padded segment names produced by the
`seg_%05d.wav` pattern, sorting lexicographically (the Python `sorted`
order the Watcher uses) is the same as sorting by numeric sequence
index. -/
theorem c7_lex_order_matches_index_order (i j : Nat)
    (hi : i < 100000) (hj : j < 100000) :
    (strLt (segFileName i) (segFileName j) = true ↔ i < j) :=
  segFileName_lt_iff i j hi hj

/-- C7 witness: the order equivalence applied at indices 3 and 12. -/
theorem c7_lex_order_matches_index_order_witness :
    strLt (segFileName 3) (segFileName 12) = true :=
  (c7_lex_order_matches_index_order 3 12 (by decide) (by decide)).mpr (by decide)

/-! ## Claim C8 -/

/-- C8: a segment file skipped for being below the 64-byte threshold is
not added to the processed set, so a later poll reconsiders it; once a
poll sees its size at or above the threshold (and that scan's dispatch
loop completes), the file is dispatched.  No skipped file is
permanently dropped while capture continues. -/
theorem c8_small_file_retried (ts : Bool) (S : Nat)
    (trans : String → Except String String)
    (dir dir2 : List (String × Nat)) (processed : List String) (f : String)
    (hseg : isSegFile f = true) (hsmall : fileSize dir f < 64)
    (hnp : f ∉ processed) :
    f ∉ (mainScan ts S trans dir processed).processed ∧
    (f ∈ namesOf dir2 → 64 ≤ fileSize dir2 f →
      (mainScan ts S trans dir2 ((mainScan ts S trans dir processed).processed)).err = none →
      f ∈ (mainScan ts S trans dir2
        ((mainScan ts S trans dir processed).processed)).dispatched) := by
  have hnp2 : f ∉ (mainScan ts S trans dir processed).processed := by
    rw [mainScan_eq, scanDir_processed_eq false ts S trans dir processed]
    intro hmem
    rcases List.mem_append.mp hmem with h | h
    · exact hnp h
    · have h4 := (scan_dispatched_mem false ts S trans dir processed f h).2.2.2
      omega
  refine ⟨hnp2, ?_⟩
  intro hmem2 hrdy2 he
  rw [mainScan_eq ts S trans dir2 ((mainScan ts S trans dir processed).processed)] at he ⊢
  exact scan_dispatched_of_ready false ts S trans dir2 _ he f hmem2 hseg hrdy2 hnp2

/-- C8 witness: a 40-byte file is skipped without being recorded, then
dispatched by the next poll once grown to 100 bytes. -/
theorem c8_small_file_retried_witness :
    ("seg_00001.wav" : String) ∉
      (mainScan false 8 transHello [(("seg_00001.wav"), 40)] []).processed ∧
    ("seg_00001.wav" : String) ∈
      (mainScan false 8 transHello [(("seg_00001.wav"), 100)]
        ((mainScan false 8 transHello [(("seg_00001.wav"), 40)] []).processed)).dispatched := by
  have h := c8_small_file_retried false 8 transHello
    [(("seg_00001.wav"), 40)] [(("seg_00001.wav"), 100)] [] ("seg_00001.wav")
    (by decide) (by decide) (by decide)
  exact ⟨h.1, h.2 (by decide) (by decide) (by decide)⟩

/-! ## Claim C9 -/

/-- C9: with timestamps enabled, a segment whose file-name index does
not parse as an integer is still dispatched — the parse failure is
caught, not raised — and its line is emitted with an empty window: the
bare stripped transcript. -/
theorem c9_unparsable_index_empty_window (S : Nat)
    (trans : String → Except String String) (dir : List (String × Nat))
    (processed : List String) (f : String)
    (hp : parseSegIdx f = none)
    (hmem : f ∈ namesOf dir) (hseg : isSegFile f = true)
    (hrdy : 64 ≤ fileSize dir f) (hnp : f ∉ processed)
    (he : (mainScan true S trans dir processed).err = none) :
    f ∈ (mainScan true S trans dir processed).dispatched ∧
    mkLine false true S f (okText (trans f)) = pyStrip (okText (trans f)) ∧
    (mainScan true S trans dir processed).lines =
      (mainScan true S trans dir processed).dispatched.map
        (fun g => mkLine false true S g (okText (trans g))) := by
  rw [mainScan_eq true S trans dir processed] at he ⊢
  exact ⟨scan_dispatched_of_ready false true S trans dir processed he f hmem hseg hrdy hnp,
    mkLine_poll_no_window S f (okText (trans f)) hp,
    scan_lines_map false true S trans dir processed he⟩

/-- C9 witness: the file `seg_abc.wav` (unparsable index) is dispatched
and emitted without a window. -/
theorem c9_unparsable_index_empty_window_witness :
    ("seg_abc.wav" : String) ∈
      (mainScan true 8 transHello [(("seg_abc.wav"), 100)] []).dispatched ∧
    mkLine false true 8 ("seg_abc.wav") (okText (transHello ("seg_abc.wav"))) =
      pyStrip (okText (transHello ("seg_abc.wav"))) := by
  have h := c9_unparsable_index_empty_window 8 transHello [(("seg_abc.wav"), 100)] []
    ("seg_abc.wav") (by decide) (by decide) (by decide) (by decide) (by decide) (by decide)
  exact ⟨h.1, h.2.1⟩

/-! ## Claim C10 -/

/-- C10: every engine value the command line accepts resolves to the
faster-whisper or openai-whisper branch regardless of whether
faster-whisper is importable; the unknown-engine `ValueError` branch of
`transcribe_file` is unreachable from the CLI. -/
theorem c10_cli_engines_never_unknown (engine : String) (avail : Bool)
    (h : engine ∈ cliEngineChoices) :
    (engineDispatch engine avail).isUnknown = false := by
  simp only [cliEngineChoices, List.mem_cons, List.not_mem_nil, or_false] at h
  rcases h with h | h | h <;> subst h <;> cases avail <;> decide

/-- C10 witness: the theorem applied at the default engine value. -/
theorem c10_cli_engines_never_unknown_witness :
    (engineDispatch ("auto") true).isUnknown = false :=
  c10_cli_engines_never_unknown ("auto") true (by decide)

end Sys2txt
